import Mathlib

/-!
Shallow embedding of `src/src/lib.rs` (ArkanaCoreContract, a NEAR smart
contract): a points ledger with cooldown-gated daily claims, a weighted
spin wheel with an adaptive "pity" counter, and a ticket-based reward
lottery.

Modelling conventions:
* `u64`/`u16` values are `Nat`; subtraction only occurs after an explicit
  balance check (as in the source), so `Nat` subtraction agrees with `u64`
  subtraction on every path the theorems speak about.  The `u8` counter
  `spinwheel_wr` is a `Nat` kept below 256; its increment is taken modulo
  256, the wrapping behaviour of a release-mode `+= 1` on `u8`.
* The `as u16` cast of the `u32` random word in `play_spin_wheel`
  (line 245 of the source) is modelled as `% 65536`.
* A Rust `panic!`/failed `assert!`/`unwrap` aborts the whole call with no
  state change; every operation therefore returns
  `Except Err (ContractState × output)` and an `.error` result leaves the
  caller with the unchanged pre-state.  `Err.unwrapNone` stands for an
  `unwrap()`/`expect` panic on `None`, `Err.divisionByZero` for the
  arithmetic panic of `%` with divisor 0.
* NEAR persistence: `self.rewards.get(..)` hands back a detached copy of
  the `Reward` record, persisted again only by an explicit
  `self.rewards.insert(..)`; the nested `TreeMap` of tickets writes its
  entries straight to storage.  The state therefore keeps the reward
  metadata (`rewards`) and the per-reward ticket map (`ticketsStore`)
  separately: `buy_ticket` writes both back (source lines 129-135), while
  `finalize_reward` clears the ticket map but never re-inserts the reward
  record (source lines 153-159), so its `winner` assignment is lost.
-/

namespace Arkana

abbrev AccountId := String

/-- source line 13 -/
def ONE_DAY : Nat := 86400000

/-- source lines 336-338 -/
def milli_to_seconds (ms : Nat) : Nat := ms / 1000

/-- source lines 47-52 -/
structure User where
  points : Nat
  last_daily_claim : Nat
  last_free_spinwheel : Nat
  deriving DecidableEq

/-- source lines 28-36; the `tickets : TreeMap` field lives in
`ContractState.ticketsStore` (see the header comment). -/
structure Reward where
  title : String
  price : Nat
  ended_at : Nat
  total_tickets : Nat
  winner : Option AccountId
  deriving DecidableEq

/-- Panic/abort reasons of the contract's operations, one constructor per
distinct `panic!`/`assert!` message plus the two implicit panics
(`unwrap()` on `None`, remainder by zero). -/
inductive Err where
  | unauthorized
  | unwrapNone
  | alreadyRegistered
  | rewardEnded
  | rewardNotEnded
  | alreadyFinalized
  | insufficientPoints
  | divisionByZero
  | cooldownActive (remaining_seconds : Nat)
  deriving DecidableEq

/-- source lines 15-26: the persisted contract state.  `ticketsStore rid`
is the content of the `TreeMap` of reward `rid`, a list of
`(range_start, owner)` pairs kept sorted by key (the `TreeMap` order). -/
structure ContractState where
  owner : AccountId
  daily_claim_points : Nat
  spin_wheel_price : Nat
  users : AccountId → Option User
  rewards : Nat → Option Reward
  ticketsStore : Nat → List (Nat × AccountId)
  last_reward_id : Nat
  membership_contracts : List AccountId
  spinwheel_wr : Nat

def setUser (st : ContractState) (a : AccountId) (u : User) : ContractState :=
  { st with users := fun x => if x = a then some u else st.users x }

def setReward (st : ContractState) (rid : Nat) (r : Reward) : ContractState :=
  { st with rewards := fun x => if x = rid then some r else st.rewards x }

def setTickets (st : ContractState) (rid : Nat) (es : List (Nat × AccountId)) :
    ContractState :=
  { st with ticketsStore := fun x => if x = rid then es else st.ticketsStore x }

/-- `TreeMap::insert`: ordered insert, overwriting an equal key. -/
def tmInsert (es : List (Nat × AccountId)) (k : Nat) (v : AccountId) :
    List (Nat × AccountId) :=
  match es with
  | [] => [(k, v)]
  | (k1, v1) :: rest =>
    if k < k1 then (k, v) :: (k1, v1) :: rest
    else if k = k1 then (k, v) :: rest
    else (k1, v1) :: tmInsert rest k v

/-- `TreeMap::floor_key`: the greatest key `≤ r` of a sorted entry list. -/
def tmFloorKey (es : List (Nat × AccountId)) (r : Nat) : Option Nat :=
  match es with
  | [] => none
  | (k, _) :: rest =>
    if k ≤ r then
      match tmFloorKey rest r with
      | none => some k
      | some k1 => some k1
    else none

/-- `TreeMap::get`. -/
def tmGet (es : List (Nat × AccountId)) (k : Nat) : Option AccountId :=
  match es with
  | [] => none
  | (k1, v) :: rest => if k = k1 then some v else tmGet rest k

/-- The state written by a successful `buy_ticket` (source lines 127-135):
debit the buyer, insert the ticket entry keyed at the current
`total_tickets`, bump `total_tickets` by `amount`, write user and reward
back. -/
def buyApply (st : ContractState) (caller : AccountId) (rid : Nat)
    (reward : Reward) (user : User) (amount : Nat) : ContractState :=
  setTickets
    (setReward
      (setUser st caller { user with points := user.points - reward.price * amount })
      rid { reward with total_tickets := reward.total_tickets + amount })
    rid (tmInsert (st.ticketsStore rid) reward.total_tickets caller)

/-- source lines 112-138.  `now` is `env::block_timestamp_ms()`. -/
def buy_ticket (st : ContractState) (caller : AccountId) (now rid amount : Nat) :
    Except Err (ContractState × Nat × Nat) :=
  match st.rewards rid with
  | none => .error .unwrapNone
  | some reward =>
    if now < reward.ended_at then
      match st.users caller with
      | none => .error .unwrapNone
      | some user =>
        if user.points < reward.price * amount then .error .insufficientPoints
        else .ok (buyApply st caller rid reward user amount, (rid, amount))
    else .error .rewardEnded

/-- source lines 140-160.  `rand` is the `u32` returned by
`get_random_number(0)` (cast to `u64` is lossless).  Note: the updated
`reward` record (its `winner` field in particular) is never re-inserted
into `self.rewards`; only the `TreeMap::clear()` of the ticket entries
reaches storage.  This mirrors the source, which lacks a
`self.rewards.insert(&reward_id.0, &reward)` before `return winner`. -/
def finalize_reward (st : ContractState) (now rand rid : Nat) :
    Except Err (ContractState × AccountId) :=
  match st.rewards rid with
  | none => .error .unwrapNone
  | some reward =>
    if reward.winner.isSome then .error .alreadyFinalized
    else if now < reward.ended_at then .error .rewardNotEnded
    else if reward.total_tickets = 0 then .error .divisionByZero
    else
      match tmFloorKey (st.ticketsStore rid) (rand % reward.total_tickets) with
      | none => .error .unwrapNone
      | some k =>
        match tmGet (st.ticketsStore rid) k with
        | none => .error .unwrapNone
        | some w => .ok (setTickets st rid [], w)

/-- source lines 179-200. -/
def daily_claim_point (st : ContractState) (caller : AccountId) (now : Nat) :
    Except Err (ContractState × Nat) :=
  match st.users caller with
  | none => .error .unwrapNone
  | some user =>
    if now - user.last_daily_claim < ONE_DAY then
      .error (.cooldownActive (milli_to_seconds (ONE_DAY - (now - user.last_daily_claim))))
    else
      .ok (setUser st caller
            { user with
              points := user.points + st.daily_claim_points
              last_daily_claim := now },
           user.points + st.daily_claim_points)

/-- source lines 227-235: the six payouts and their weights at pity
counter `wr`. -/
def spinPayouts : List Nat := [1, 3, 7, 9, 12, 15]

def spinWeights (wr : Nat) : List Nat :=
  [50, 80, 70, 20 + wr * 3 / 10, 10 + wr * 2 / 10, 2 + wr * 1 / 10]

/-- source lines 237-242: `cumulative_weights[0] = weights[0]`,
`cumulative_weights[i] = weights[i] + cumulative_weights[i-1]`. -/
def cumSums : List Nat → Nat → List Nat
  | [], _ => []
  | w :: ws, acc => (acc + w) :: cumSums ws (acc + w)

/-- source line 244: `total_weights = cumulative_weights[5]`. -/
def spinTotal (wr : Nat) : Nat := (cumSums (spinWeights wr) 0).getD 5 0

/-- source line 245: `get_random_number(0) as u16 % total_weights` —
the `u32` word is truncated to 16 bits before the reduction. -/
def spinDraw (wr rand : Nat) : Nat := rand % 65536 % spinTotal wr

/-- source lines 246-253: first index whose cumulative weight is
`>= random_number`; `result` stays 0 if no index matches. -/
def scanSpin : List Nat → List Nat → Nat → Nat
  | c :: cs, p :: ps, r => if r ≤ c then p else scanSpin cs ps r
  | _, _, _ => 0

def spinResult (wr rand : Nat) : Nat :=
  scanSpin (cumSums (spinWeights wr) 0) spinPayouts (spinDraw wr rand)

/-- source lines 202-266. -/
def play_spin_wheel (st : ContractState) (caller : AccountId) (now rand : Nat)
    (is_free : Bool) : Except Err (ContractState × Nat) :=
  match st.users caller with
  | none => .error .unwrapNone
  | some user =>
    let gate : Except Err User :=
      if is_free then
        if now - user.last_free_spinwheel < ONE_DAY then
          .error (.cooldownActive (milli_to_seconds (ONE_DAY - (now - user.last_free_spinwheel))))
        else .ok { user with last_free_spinwheel := now }
      else
        if user.points < st.spin_wheel_price then .error .insufficientPoints
        else .ok { user with points := user.points - st.spin_wheel_price }
    match gate with
    | .error e => .error e
    | .ok user1 =>
      let result := spinResult st.spinwheel_wr rand
      let wr1 := if 5 < result then 0 else (st.spinwheel_wr + 1) % 256
      .ok (setUser { st with spinwheel_wr := wr1 } caller
            { user1 with points := user1.points + result },
           result)

/-- Run a list of `buy_ticket` calls `(buyer, amount, now)` on one reward,
`none` if any call aborts. -/
def buySeq (st : ContractState) (rid : Nat) :
    List (AccountId × Nat × Nat) → Option ContractState
  | [] => some st
  | (buyer, amount, now) :: rest =>
    match buy_ticket st buyer now rid amount with
    | .ok (st1, _) => buySeq st1 rid rest
    | .error _ => none

/-- The key each `buy_ticket` call records its entry under: the reward's
`total_tickets` at call time (source lines 129-131), listed per call. -/
def buyKeys (st : ContractState) (rid : Nat) :
    List (AccountId × Nat × Nat) → Option (List Nat)
  | [] => some []
  | (buyer, amount, now) :: rest =>
    match st.rewards rid with
    | none => none
    | some reward =>
      match buy_ticket st buyer now rid amount with
      | .ok (st1, _) => (buyKeys st1 rid rest).map (fun ks => reward.total_tickets :: ks)
      | .error _ => none

/-- The ticket entries a run of purchases `(buyer, amount)` starting at
ticket count `t0` is expected to leave behind: one entry per purchase,
keyed by the running total. -/
def expectedEntries (t0 : Nat) : List (AccountId × Nat) → List (Nat × AccountId)
  | [] => []
  | (b, a) :: rest => (t0, b) :: expectedEntries (t0 + a) rest

/-- The half-open ranges `(range_start, amount)` recorded by a run of
purchase amounts starting at ticket count `t0`. -/
def expectedRanges (t0 : Nat) : List Nat → List (Nat × Nat)
  | [] => []
  | a :: rest => (t0, a) :: expectedRanges (t0 + a) rest

/-- `x` lies in one of the half-open ranges `[start, start + amount)`. -/
def coveredBy (ranges : List (Nat × Nat)) (x : Nat) : Prop :=
  ∃ p ∈ ranges, p.1 ≤ x ∧ x < p.1 + p.2

/-- Modelled from the spec's words (§4.3 step 4-5): the cumulative sums of
the weight array `{50, 80, 70, 20 + wr*3/10, 10 + wr*2/10, 2 + wr*1/10}`,
written out as literal prefix sums for comparison against the code's loop. -/
def specCumWeights (wr : Nat) : List Nat :=
  [50,
   50 + 80,
   50 + 80 + 70,
   50 + 80 + 70 + (20 + wr * 3 / 10),
   50 + 80 + 70 + (20 + wr * 3 / 10) + (10 + wr * 2 / 10),
   50 + 80 + 70 + (20 + wr * 3 / 10) + (10 + wr * 2 / 10) + (2 + wr * 1 / 10)]

/-- Modelled from the spec's words (§4.3 step 5): given an already-reduced
draw `r`, the payout at the first index whose cumulative sum is `≥ r`. -/
def specSpinOutcome (wr r : Nat) : Option Nat :=
  ((specCumWeights wr).findIdx? (fun c => decide (r ≤ c))).bind
    (fun i => spinPayouts.get? i)

/-- The draw as the claim words it: the raw `u32` random word reduced
modulo the total weight, with no 16-bit truncation. -/
def specDrawU32 (wr rand : Nat) : Nat := rand % (specCumWeights wr).getD 5 0

/-- Payout of a spin, `none` when the call aborted. -/
def payoutAfterSpin (r : Except Err (ContractState × Nat)) : Option Nat :=
  match r with
  | .ok (_, p) => some p
  | .error _ => none

/-- Pity counter after a spin, `none` when the call aborted. -/
def wrAfterSpin (r : Except Err (ContractState × Nat)) : Option Nat :=
  match r with
  | .ok (st, _) => some st.spinwheel_wr
  | .error _ => none

/-- Ticket map of reward `rid` after a run of purchases. -/
def ticketsAfterSeq (o : Option ContractState) (rid : Nat) :
    Option (List (Nat × AccountId)) :=
  o.map (fun st => st.ticketsStore rid)

/-- `winner` field of reward `rid` as persisted in `st.rewards`. -/
def winnerOf (st : ContractState) (rid : Nat) : Option (Option AccountId) :=
  (st.rewards rid).map Reward.winner

/- Concrete states used by the closed counterexample/witness theorems. -/

def aliceW : User := { points := 100, last_daily_claim := 0, last_free_spinwheel := 0 }

def bobW : User := { points := 100, last_daily_claim := 0, last_free_spinwheel := 0 }

def carolW : User := { points := 1, last_daily_claim := 0, last_free_spinwheel := 0 }

def rewardW : Reward :=
  { title := "r", price := 2, ended_at := 10, total_tickets := 0, winner := none }

/-- A small populated contract state: three users, one open reward. -/
def stW : ContractState :=
  { owner := "owner"
    daily_claim_points := 10
    spin_wheel_price := 5
    users := fun a =>
      if a = "alice" then some aliceW
      else if a = "bob" then some bobW
      else if a = "carol" then some carolW
      else none
    rewards := fun r => if r = 1 then some rewardW else none
    ticketsStore := fun _ => []
    last_reward_id := 1
    membership_contracts := []
    spinwheel_wr := 0 }

/-- State after `play_spin_wheel stW "alice" 0 0 false`. -/
def stWspin : ContractState :=
  match play_spin_wheel stW "alice" 0 0 false with
  | .ok (s, _) => s
  | .error _ => stW

/-- The two-purchase run used by the C3 witness. -/
def opsW : List (AccountId × Nat × Nat) := [("alice", 2, 5), ("bob", 3, 6)]

/-- State after the two-purchase run used by the C3 witness. -/
def stWbuys : ContractState :=
  match buySeq stW 1 opsW with
  | some s => s
  | none => stW

/-- Reward 1 with one sold ticket owned by alice, past its deadline. -/
def rewardC1 : Reward :=
  { title := "r", price := 1, ended_at := 100, total_tickets := 1, winner := none }

def stC1 : ContractState :=
  { stW with
    rewards := fun r => if r = 1 then some rewardC1 else none
    ticketsStore := fun r => if r = 1 then [(0, "alice")] else [] }

/-- State after the first (successful) `finalize_reward` on `stC1`. -/
def stC1b : ContractState := setTickets stC1 1 []

/-- Reward 1 past its deadline with zero tickets sold. -/
def rewardC2 : Reward :=
  { title := "r", price := 1, ended_at := 100, total_tickets := 0, winner := none }

def stC2 : ContractState :=
  { stW with rewards := fun r => if r = 1 then some rewardC2 else none }

/-- `stW` with the pity counter at its `u8` maximum. -/
def stC7 : ContractState := { stW with spinwheel_wr := 255 }

/-! ## Helper lemmas -/

@[simp] theorem setUser_users_same (st : ContractState) (a : AccountId) (u : User) :
    (setUser st a u).users a = some u := by simp [setUser]

@[simp] theorem setUser_rewards (st : ContractState) (a : AccountId) (u : User) :
    (setUser st a u).rewards = st.rewards := rfl

@[simp] theorem setUser_ticketsStore (st : ContractState) (a : AccountId) (u : User) :
    (setUser st a u).ticketsStore = st.ticketsStore := rfl

@[simp] theorem setUser_spinwheel (st : ContractState) (a : AccountId) (u : User) :
    (setUser st a u).spinwheel_wr = st.spinwheel_wr := rfl

@[simp] theorem setReward_rewards_same (st : ContractState) (rid : Nat) (r : Reward) :
    (setReward st rid r).rewards rid = some r := by simp [setReward]

@[simp] theorem setReward_users (st : ContractState) (rid : Nat) (r : Reward) :
    (setReward st rid r).users = st.users := rfl

@[simp] theorem setReward_ticketsStore (st : ContractState) (rid : Nat) (r : Reward) :
    (setReward st rid r).ticketsStore = st.ticketsStore := rfl

@[simp] theorem setTickets_users (st : ContractState) (rid : Nat)
    (es : List (Nat × AccountId)) : (setTickets st rid es).users = st.users := rfl

@[simp] theorem setTickets_rewards (st : ContractState) (rid : Nat)
    (es : List (Nat × AccountId)) : (setTickets st rid es).rewards = st.rewards := rfl

@[simp] theorem setTickets_ticketsStore_same (st : ContractState) (rid : Nat)
    (es : List (Nat × AccountId)) : (setTickets st rid es).ticketsStore rid = es := by
  simp [setTickets]

@[simp] theorem buyApply_users_same (st : ContractState) (c : AccountId) (rid : Nat)
    (reward : Reward) (user : User) (amount : Nat) :
    (buyApply st c rid reward user amount).users c =
      some { user with points := user.points - reward.price * amount } := by
  simp [buyApply]

@[simp] theorem buyApply_rewards_same (st : ContractState) (c : AccountId) (rid : Nat)
    (reward : Reward) (user : User) (amount : Nat) :
    (buyApply st c rid reward user amount).rewards rid =
      some { reward with total_tickets := reward.total_tickets + amount } := by
  simp [buyApply]

@[simp] theorem buyApply_ticketsStore_same (st : ContractState) (c : AccountId) (rid : Nat)
    (reward : Reward) (user : User) (amount : Nat) :
    (buyApply st c rid reward user amount).ticketsStore rid =
      tmInsert (st.ticketsStore rid) reward.total_tickets c := by
  simp [buyApply]

theorem tmInsert_append (es : List (Nat × AccountId)) (k : Nat) (v : AccountId)
    (h : ∀ e ∈ es, e.1 < k) : tmInsert es k v = es ++ [(k, v)] := by
  induction es with
  | nil => rfl
  | cons e rest ih =>
    obtain ⟨k1, v1⟩ := e
    have hk : k1 < k := h (k1, v1) (List.mem_cons_self _ _)
    simp only [tmInsert]
    rw [if_neg (by omega), if_neg (by omega),
      ih (fun e he => h e (List.mem_cons_of_mem _ he))]
    simp

theorem tmGet_tmInsert (es : List (Nat × AccountId)) (k : Nat) (v : AccountId) :
    tmGet (tmInsert es k v) k = some v := by
  induction es with
  | nil => simp [tmInsert, tmGet]
  | cons e rest ih =>
    obtain ⟨k1, v1⟩ := e
    simp only [tmInsert]
    by_cases h1 : k < k1
    · simp [h1, tmGet]
    · by_cases h2 : k = k1
      · simp [h1, h2, tmGet]
      · simp [h1, h2, tmGet, ih]

theorem spinTotal_eq (wr : Nat) :
    spinTotal wr =
      50 + 80 + 70 + (20 + wr * 3 / 10) + (10 + wr * 2 / 10) + (2 + wr * 1 / 10) := by
  simp [spinTotal, cumSums, spinWeights]

theorem spinTotal_pos (wr : Nat) : 0 < spinTotal wr := by
  rw [spinTotal_eq]; omega

theorem spinDraw_lt (wr rand : Nat) : spinDraw wr rand < spinTotal wr :=
  Nat.mod_lt _ (spinTotal_pos wr)

theorem spinResult_mem (wr rand : Nat) :
    spinResult wr rand ∈ ([1, 3, 7, 9, 12, 15] : List Nat) := by
  have hlt : spinDraw wr rand < spinTotal wr := spinDraw_lt wr rand
  rw [spinTotal_eq] at hlt
  unfold spinResult
  simp only [spinWeights, spinPayouts, cumSums, scanSpin]
  norm_num
  split_ifs <;> simp_all
  omega

theorem specOutcome_eq_spinResult (wr r : Nat)
    (h : r ≤ 50 + 80 + 70 + (20 + wr * 3 / 10) + (10 + wr * 2 / 10) + (2 + wr * 1 / 10)) :
    specSpinOutcome wr r = some (scanSpin (cumSums (spinWeights wr) 0) spinPayouts r) := by
  simp only [specSpinOutcome, specCumWeights, spinPayouts, spinWeights, cumSums,
    List.findIdx?_cons, List.findIdx?_nil, decide_eq_true_eq, scanSpin]
  norm_num
  split_ifs <;> simp_all

/-- Shape of a successful paid spin: the price is debited, the payout
credited, the pity counter updated from the payout. -/
theorem play_paid_ok (st : ContractState) (caller : AccountId) (now rand : Nat)
    (user : User) (hu : st.users caller = some user)
    (hp : st.spin_wheel_price ≤ user.points) :
    play_spin_wheel st caller now rand false =
      .ok (setUser
             { st with
               spinwheel_wr :=
                 if 5 < spinResult st.spinwheel_wr rand then 0
                 else (st.spinwheel_wr + 1) % 256 }
             caller
             { user with
               points := user.points - st.spin_wheel_price + spinResult st.spinwheel_wr rand },
           spinResult st.spinwheel_wr rand) := by
  simp [play_spin_wheel, hu, Nat.not_lt.mpr hp]

theorem play_free_ok (st : ContractState) (caller : AccountId) (now rand : Nat)
    (user : User) (hu : st.users caller = some user)
    (hc : ¬ (now - user.last_free_spinwheel < ONE_DAY)) :
    play_spin_wheel st caller now rand true =
      .ok (setUser
             { st with
               spinwheel_wr :=
                 if 5 < spinResult st.spinwheel_wr rand then 0
                 else (st.spinwheel_wr + 1) % 256 }
             caller
             { user with
               points := user.points + spinResult st.spinwheel_wr rand
               last_free_spinwheel := now },
           spinResult st.spinwheel_wr rand) := by
  simp [play_spin_wheel, hu, hc]

theorem play_ok_shape (st : ContractState) (caller : AccountId) (now rand : Nat)
    (is_free : Bool) (st1 : ContractState) (p : Nat)
    (h : play_spin_wheel st caller now rand is_free = .ok (st1, p)) :
    p = spinResult st.spinwheel_wr rand ∧
    st1.spinwheel_wr = (if 5 < p then 0 else (st.spinwheel_wr + 1) % 256) := by
  cases hu : st.users caller with
  | none => simp [play_spin_wheel, hu] at h
  | some user =>
    cases is_free with
    | false =>
      by_cases hp : user.points < st.spin_wheel_price
      · simp [play_spin_wheel, hu, hp] at h
      · rw [play_paid_ok st caller now rand user hu (by omega)] at h
        simp only [Except.ok.injEq, Prod.mk.injEq] at h
        obtain ⟨h1, h2⟩ := h
        subst h2
        rw [← h1]
        exact ⟨rfl, rfl⟩
    | true =>
      by_cases hc : now - user.last_free_spinwheel < ONE_DAY
      · simp [play_spin_wheel, hu, hc] at h
      · rw [play_free_ok st caller now rand user hu hc] at h
        simp only [Except.ok.injEq, Prod.mk.injEq] at h
        obtain ⟨h1, h2⟩ := h
        subst h2
        rw [← h1]
        exact ⟨rfl, rfl⟩

theorem play_paid_ok_inv (st : ContractState) (caller : AccountId) (now rand : Nat)
    (st1 : ContractState) (p : Nat) (user : User) (hu : st.users caller = some user)
    (h : play_spin_wheel st caller now rand false = .ok (st1, p)) :
    st.spin_wheel_price ≤ user.points ∧
    st1.users caller = some { user with points := user.points - st.spin_wheel_price + p } := by
  by_cases hp : user.points < st.spin_wheel_price
  · simp [play_spin_wheel, hu, hp] at h
  · rw [play_paid_ok st caller now rand user hu (by omega)] at h
    simp only [Except.ok.injEq, Prod.mk.injEq] at h
    obtain ⟨h1, h2⟩ := h
    subst h2
    rw [← h1]
    exact ⟨by omega, by simp⟩

theorem buy_ok_inv (st : ContractState) (caller : AccountId) (now rid amount : Nat)
    (st1 : ContractState) (out : Nat × Nat) (reward : Reward)
    (hr : st.rewards rid = some reward)
    (h : buy_ticket st caller now rid amount = .ok (st1, out)) :
    ∃ user, st.users caller = some user ∧ now < reward.ended_at ∧
      reward.price * amount ≤ user.points ∧
      st1 = buyApply st caller rid reward user amount := by
  rcases Nat.lt_or_ge now reward.ended_at with hn | hn
  · cases hu : st.users caller with
    | none => simp [buy_ticket, hr, hu, hn] at h
    | some user =>
      by_cases hp : user.points < reward.price * amount
      · simp [buy_ticket, hr, hu, hn, hp] at h
      · refine ⟨user, rfl, hn, by omega, ?_⟩
        simp [buy_ticket, hr, hu, hn, hp] at h
        exact h.1.symm
  · simp [buy_ticket, hr, Nat.not_lt.mpr hn] at h

/-- Claim C4: for a registered buyer and an existing reward, `buy_ticket`
fails `RewardEnded` when `now >= ended_at`; otherwise fails
`InsufficientPoints` when the balance is below `price * amount`; otherwise
it debits exactly `price * amount`, inserts one tickets entry keyed at the
reward's current `total_tickets` mapped to the buyer, and then increments
`total_tickets` by `amount`. -/
theorem buy_ticket_behaviour (st : ContractState) (caller : AccountId)
    (now rid amount : Nat) (reward : Reward) (user : User)
    (hr : st.rewards rid = some reward) (hu : st.users caller = some user) :
    (reward.ended_at ≤ now → buy_ticket st caller now rid amount = .error .rewardEnded) ∧
    (now < reward.ended_at → user.points < reward.price * amount →
      buy_ticket st caller now rid amount = .error .insufficientPoints) ∧
    (now < reward.ended_at → reward.price * amount ≤ user.points →
      buy_ticket st caller now rid amount =
        .ok (buyApply st caller rid reward user amount, (rid, amount)) ∧
      (buyApply st caller rid reward user amount).users caller =
        some { user with points := user.points - reward.price * amount } ∧
      user.points - reward.price * amount + reward.price * amount = user.points ∧
      (buyApply st caller rid reward user amount).ticketsStore rid =
        tmInsert (st.ticketsStore rid) reward.total_tickets caller ∧
      tmGet ((buyApply st caller rid reward user amount).ticketsStore rid)
          reward.total_tickets = some caller ∧
      (buyApply st caller rid reward user amount).rewards rid =
        some { reward with total_tickets := reward.total_tickets + amount }) := by
  refine ⟨?_, ?_, ?_⟩
  · intro h
    simp [buy_ticket, hr, Nat.not_lt.mpr h]
  · intro h1 h2
    simp [buy_ticket, hr, hu, h1, h2]
  · intro h1 h2
    refine ⟨by simp [buy_ticket, hr, hu, h1, Nat.not_lt.mpr h2], by simp, by omega,
      by simp, ?_, by simp⟩
    rw [buyApply_ticketsStore_same]
    exact tmGet_tmInsert _ _ _

/-- Claim C8: both debit-causing operations (`buy_ticket` and the paid
`play_spin_wheel`) pre-check the balance: when it is below the debit they
fail with `InsufficientPoints` (an aborted call leaves every balance
unchanged, since an `.error` result carries no state), and when they
succeed the debit is exactly `price * amount` resp. `spin_wheel_price`,
never exceeding the pre-call balance — so `points` never underflows; the
per-state quantification covers every state in any sequence of
operations. -/
theorem debits_prechecked (st : ContractState) (caller : AccountId)
    (now rid amount rand : Nat) (reward : Reward) (user : User)
    (hr : st.rewards rid = some reward) (hu : st.users caller = some user) :
    (now < reward.ended_at → user.points < reward.price * amount →
      buy_ticket st caller now rid amount = .error .insufficientPoints) ∧
    (∀ st1 out, buy_ticket st caller now rid amount = .ok (st1, out) →
      reward.price * amount ≤ user.points ∧
      st1.users caller = some { user with points := user.points - reward.price * amount } ∧
      user.points - reward.price * amount + reward.price * amount = user.points) ∧
    (user.points < st.spin_wheel_price →
      play_spin_wheel st caller now rand false = .error .insufficientPoints) ∧
    (∀ st1 p, play_spin_wheel st caller now rand false = .ok (st1, p) →
      st.spin_wheel_price ≤ user.points ∧
      st1.users caller = some { user with points := user.points - st.spin_wheel_price + p }) := by
  refine ⟨fun h1 h2 => by simp [buy_ticket, hr, hu, h1, h2], ?_,
    fun h => by simp [play_spin_wheel, hu, h], ?_⟩
  · intro st1 out h
    obtain ⟨user2, hu2, hn, hp, hst⟩ := buy_ok_inv st caller now rid amount st1 out reward hr h
    rw [hu] at hu2
    injection hu2 with hu2
    subst hu2
    exact ⟨hp, by rw [hst]; simp, by omega⟩
  · intro st1 p h
    exact play_paid_ok_inv st caller now rand st1 p user hu h

/-- Claim C10: for a registered buyer and an open reward, `buy_ticket`
with `amount = 0` succeeds, debits nothing, inserts (or overwrites) a
tickets entry at key `total_tickets` mapped to the buyer, and leaves
`total_tickets` unchanged; a subsequent purchase on the same reward
overwrites that entry's owner. -/
theorem zero_amount_buy (st : ContractState) (caller caller2 : AccountId)
    (now now2 rid amount2 : Nat) (reward : Reward) (user : User)
    (hr : st.rewards rid = some reward) (hu : st.users caller = some user)
    (hnow : now < reward.ended_at) :
    buy_ticket st caller now rid 0 = .ok (buyApply st caller rid reward user 0, (rid, 0)) ∧
    (buyApply st caller rid reward user 0).users caller = some user ∧
    (buyApply st caller rid reward user 0).rewards rid = some reward ∧
    (buyApply st caller rid reward user 0).ticketsStore rid =
      tmInsert (st.ticketsStore rid) reward.total_tickets caller ∧
    tmGet ((buyApply st caller rid reward user 0).ticketsStore rid) reward.total_tickets =
      some caller ∧
    (∀ user2, (buyApply st caller rid reward user 0).users caller2 = some user2 →
      now2 < reward.ended_at → reward.price * amount2 ≤ user2.points →
      buy_ticket (buyApply st caller rid reward user 0) caller2 now2 rid amount2 =
        .ok (buyApply (buyApply st caller rid reward user 0) caller2 rid reward user2 amount2,
             (rid, amount2)) ∧
      tmGet ((buyApply (buyApply st caller rid reward user 0) caller2 rid reward
          user2 amount2).ticketsStore rid) reward.total_tickets = some caller2) := by
  have hrew : (buyApply st caller rid reward user 0).rewards rid = some reward := by simp
  refine ⟨by simp [buy_ticket, hr, hu, hnow], by simp, hrew, by simp, ?_, ?_⟩
  · rw [buyApply_ticketsStore_same]
    exact tmGet_tmInsert _ _ _
  · intro user2 hu2 hn2 hp2
    refine ⟨by simp [buy_ticket, hrew, hu2, hn2, Nat.not_lt.mpr hp2], ?_⟩
    rw [buyApply_ticketsStore_same]
    exact tmGet_tmInsert _ _ _

/-- Claim C5: for a registered account (with the monotone-clock assumption
`last_daily_claim <= now`, which the `u64` subtraction of the source needs),
`daily_claim_point` fails `CooldownActive` with
`remaining_seconds = (86400000 - (now - last_daily_claim)) / 1000` whenever
`now - last_daily_claim < 86400000`, and otherwise credits
`daily_claim_points`, sets `last_daily_claim = now` and returns the new
balance; a second call less than 86400000 ms after a successful one fails
`CooldownActive`. -/
theorem daily_claim_behaviour (st : ContractState) (caller : AccountId) (now : Nat)
    (user : User) (hu : st.users caller = some user)
    (hmono : user.last_daily_claim ≤ now) :
    (now - user.last_daily_claim < ONE_DAY →
      daily_claim_point st caller now =
        .error (.cooldownActive ((ONE_DAY - (now - user.last_daily_claim)) / 1000))) ∧
    (ONE_DAY ≤ now - user.last_daily_claim →
      daily_claim_point st caller now =
        .ok (setUser st caller
              { user with
                points := user.points + st.daily_claim_points
                last_daily_claim := now },
             user.points + st.daily_claim_points)) ∧
    (∀ now2, now ≤ now2 → now2 < now + ONE_DAY → ONE_DAY ≤ now - user.last_daily_claim →
      daily_claim_point
          (setUser st caller
            { user with
              points := user.points + st.daily_claim_points
              last_daily_claim := now })
          caller now2 =
        .error (.cooldownActive ((ONE_DAY - (now2 - now)) / 1000))) := by
  refine ⟨?_, ?_, ?_⟩
  · intro h
    simp [daily_claim_point, hu, h, milli_to_seconds]
  · intro h
    simp [daily_claim_point, hu, Nat.not_lt.mpr h]
  · intro now2 h1 h2 h3
    simp [daily_claim_point, setUser, milli_to_seconds, show now2 - now < ONE_DAY by omega]

/-- Claim C6 (amended): for every current `spinwheel_wr` and random word,
a paid `play_spin_wheel` with sufficient balance succeeds and returns the
payout from `{1, 3, 7, 9, 12, 15}` at the first index whose cumulative sum
of the weight array
`{50, 80, 70, 20 + wr*3/10, 10 + wr*2/10, 2 + wr*1/10}` is `>= r` — where
`r = (random mod 2^16) mod total`: the code truncates the `u32` random word
to `u16` before reducing it modulo the total weight, which is the one
amendment forced by `spin_u16_truncation`. -/
theorem spin_selection (st : ContractState) (caller : AccountId) (now rand : Nat)
    (user : User) (hu : st.users caller = some user)
    (hp : st.spin_wheel_price ≤ user.points) :
    payoutAfterSpin (play_spin_wheel st caller now rand false) =
      specSpinOutcome st.spinwheel_wr (spinDraw st.spinwheel_wr rand) := by
  rw [play_paid_ok st caller now rand user hu hp]
  have h : spinDraw st.spinwheel_wr rand ≤ 50 + 80 + 70 + (20 + st.spinwheel_wr * 3 / 10) +
      (10 + st.spinwheel_wr * 2 / 10) + (2 + st.spinwheel_wr * 1 / 10) := by
    have := spinDraw_lt st.spinwheel_wr rand
    rw [spinTotal_eq] at this
    omega
  rw [specOutcome_eq_spinResult st.spinwheel_wr (spinDraw st.spinwheel_wr rand) h]
  rfl

/-- Claim C7 (amended): after every successful `play_spin_wheel`, the pity
counter is reset to 0 when the payout is `> 5` and otherwise incremented by
1 modulo 256 (the wrapping `u8` increment — not saturating, see
`spinwheel_wr_wraps_at_255`); below 255 a result `<= 5` increases the
counter by exactly 1. -/
theorem spinwheel_wr_update (st : ContractState) (caller : AccountId) (now rand : Nat)
    (is_free : Bool) (st1 : ContractState) (p : Nat)
    (h : play_spin_wheel st caller now rand is_free = .ok (st1, p)) :
    st1.spinwheel_wr = (if 5 < p then 0 else (st.spinwheel_wr + 1) % 256) ∧
    (p ≤ 5 → st.spinwheel_wr < 255 → st1.spinwheel_wr = st.spinwheel_wr + 1) := by
  obtain ⟨hp, hwr⟩ := play_ok_shape st caller now rand is_free st1 p h
  refine ⟨hwr, fun h5 h255 => ?_⟩
  rw [hwr, if_neg (by omega), Nat.mod_eq_of_lt (by omega)]

/-- Claim C9: every successful `play_spin_wheel` (free or paid) returns a
payout in `{1, 3, 7, 9, 12, 15}`: the draw `r` is reduced modulo the total
weight, hence is at most the final cumulative weight, so the scan always
matches some index and the zero-payout default is unreachable. -/
theorem spin_payout_in_table (st : ContractState) (caller : AccountId) (now rand : Nat)
    (is_free : Bool) (st1 : ContractState) (p : Nat)
    (h : play_spin_wheel st caller now rand is_free = .ok (st1, p)) :
    p ∈ ([1, 3, 7, 9, 12, 15] : List Nat) := by
  obtain ⟨hp, -⟩ := play_ok_shape st caller now rand is_free st1 p h
  rw [hp]
  exact spinResult_mem st.spinwheel_wr rand

theorem expectedEntries_map_fst (l : List (AccountId × Nat)) (t0 : Nat) :
    (expectedEntries t0 l).map Prod.fst =
      (expectedRanges t0 (l.map Prod.snd)).map Prod.fst := by
  induction l generalizing t0 with
  | nil => rfl
  | cons e rest ih =>
    obtain ⟨b, a⟩ := e
    simp only [expectedEntries, expectedRanges, List.map_cons, List.cons.injEq, true_and]
    exact ih (t0 + a)

theorem expectedRanges_fst_le (l : List Nat) (t0 : Nat) :
    ∀ p ∈ expectedRanges t0 l, t0 ≤ p.1 := by
  induction l generalizing t0 with
  | nil => simp [expectedRanges]
  | cons a rest ih =>
    intro p hp
    simp only [expectedRanges, List.mem_cons] at hp
    rcases hp with hp | hp
    · subst hp
      exact le_refl t0
    · exact le_trans (by omega) (ih (t0 + a) p hp)

theorem expectedRanges_chain (l : List Nat) (t0 : Nat) (hpos : ∀ a ∈ l, 0 < a) :
    List.Chain' (fun x y => x < y) ((expectedRanges t0 l).map Prod.fst) := by
  induction l generalizing t0 with
  | nil => simp [expectedRanges]
  | cons a rest ih =>
    cases rest with
    | nil => simp [expectedRanges]
    | cons b rest2 =>
      simp only [expectedRanges, List.map_cons]
      rw [List.chain'_cons]
      constructor
      · have : 0 < a := hpos a (List.mem_cons_self _ _)
        omega
      · have := ih (t0 + a) (fun x hx => hpos x (List.mem_cons_of_mem _ hx))
        simpa [expectedRanges] using this

theorem expectedRanges_cover (l : List Nat) (t0 x : Nat) :
    coveredBy (expectedRanges t0 l) x ↔ t0 ≤ x ∧ x < t0 + l.sum := by
  induction l generalizing t0 with
  | nil => simp [expectedRanges, coveredBy]
  | cons a rest ih =>
    have h2 := ih (t0 + a)
    constructor
    · rintro ⟨p, hp, hle, hlt⟩
      simp only [expectedRanges, List.mem_cons] at hp
      rcases hp with hp | hp
      · subst hp
        simp only [List.sum_cons]
        omega
      · have := h2.mp ⟨p, hp, hle, hlt⟩
        simp only [List.sum_cons]
        omega
    · intro hx
      simp only [List.sum_cons] at hx
      by_cases hxa : x < t0 + a
      · exact ⟨(t0, a), by simp [expectedRanges], by omega, by omega⟩
      · obtain ⟨p, hp, h3, h4⟩ := h2.mpr (by omega)
        exact ⟨p, by simp [expectedRanges, List.mem_cons, hp], h3, h4⟩

theorem expectedRanges_pairwise (l : List Nat) (t0 : Nat) :
    List.Pairwise (fun p q => p.1 + p.2 ≤ q.1) (expectedRanges t0 l) := by
  induction l generalizing t0 with
  | nil => simp [expectedRanges]
  | cons a rest ih =>
    simp only [expectedRanges]
    refine List.Pairwise.cons ?_ (ih (t0 + a))
    intro q hq
    exact expectedRanges_fst_le rest (t0 + a) q hq

theorem buySeq_shape (rid : Nat) (ops : List (AccountId × Nat × Nat)) :
    ∀ (st st1 : ContractState) (reward : Reward),
      st.rewards rid = some reward →
      (∀ e ∈ st.ticketsStore rid, e.1 < reward.total_tickets) →
      (∀ op ∈ ops, 0 < op.2.1) →
      buySeq st rid ops = some st1 →
      st1.ticketsStore rid =
        st.ticketsStore rid ++
          expectedEntries reward.total_tickets (ops.map (fun o => (o.1, o.2.1))) ∧
      ∃ reward2, st1.rewards rid = some reward2 ∧
        reward2.total_tickets = reward.total_tickets + (ops.map (fun o => o.2.1)).sum := by
  induction ops with
  | nil =>
    intro st st1 reward hr _ _ hrun
    simp only [buySeq, Option.some.injEq] at hrun
    subst hrun
    exact ⟨by simp [expectedEntries], reward, hr, by simp⟩
  | cons op rest ih =>
    intro st st1 reward hr hbound hpos hrun
    obtain ⟨buyer, amount, now⟩ := op
    simp only [buySeq] at hrun
    cases hb : buy_ticket st buyer now rid amount with
    | error e => rw [hb] at hrun; simp at hrun
    | ok pr =>
      obtain ⟨st2, out⟩ := pr
      rw [hb] at hrun
      obtain ⟨user, -, -, -, hst2⟩ := buy_ok_inv st buyer now rid amount st2 out reward hr hb
      subst hst2
      have hamount : 0 < amount := hpos (buyer, amount, now) (List.mem_cons_self _ _)
      have happend : tmInsert (st.ticketsStore rid) reward.total_tickets buyer =
          st.ticketsStore rid ++ [(reward.total_tickets, buyer)] :=
        tmInsert_append _ _ _ hbound
      have hbound2 : ∀ e ∈ (buyApply st buyer rid reward user amount).ticketsStore rid,
          e.1 < reward.total_tickets + amount := by
        rw [buyApply_ticketsStore_same, happend]
        intro e he
        rcases List.mem_append.mp he with he | he
        · have := hbound e he
          omega
        · simp only [List.mem_singleton] at he
          subst he
          omega
      obtain ⟨hts, reward2, hrw2, htot2⟩ :=
        ih (buyApply st buyer rid reward user amount) st1
          { reward with total_tickets := reward.total_tickets + amount }
          (by simp) hbound2 (fun o ho => hpos o (List.mem_cons_of_mem _ ho)) hrun
      refine ⟨?_, reward2, hrw2, ?_⟩
      · rw [hts, buyApply_ticketsStore_same, happend]
        simp only [List.map_cons, expectedEntries, List.append_assoc, List.cons_append,
          List.nil_append]
      · simp only [List.map_cons, List.sum_cons] at htot2 ⊢
        omega

/-- Claim C3 (amended): for every sequence of successful `buy_ticket`
calls with *positive* amounts on a fresh reward, the tickets map's keys are
exactly the recorded range starts, strictly increasing, and the recorded
half-open ranges `[range_start, range_start + amount)` exactly cover
`[0, T)` (with `total_tickets = T` the sum of the amounts) with no gaps and
no overlaps.  The restriction to positive amounts is forced by
`buy_ticket_zero_amount_keys`: a zero-amount purchase re-uses the current
key, so insertion-order keys need not be strictly increasing. -/
theorem buy_ticket_ranges_tile (st : ContractState) (rid : Nat) (reward : Reward)
    (ops : List (AccountId × Nat × Nat)) (st1 : ContractState)
    (hr : st.rewards rid = some reward) (h0 : reward.total_tickets = 0)
    (he : st.ticketsStore rid = []) (hpos : ∀ op ∈ ops, 0 < op.2.1)
    (hrun : buySeq st rid ops = some st1) :
    (st1.ticketsStore rid).map Prod.fst =
      (expectedRanges 0 (ops.map (fun o => o.2.1))).map Prod.fst ∧
    List.Chain' (fun x y => x < y) ((st1.ticketsStore rid).map Prod.fst) ∧
    (∃ reward2, st1.rewards rid = some reward2 ∧
      reward2.total_tickets = (ops.map (fun o => o.2.1)).sum) ∧
    (∀ x, coveredBy (expectedRanges 0 (ops.map (fun o => o.2.1))) x ↔
      x < (ops.map (fun o => o.2.1)).sum) ∧
    List.Pairwise (fun p q => p.1 + p.2 ≤ q.1)
      (expectedRanges 0 (ops.map (fun o => o.2.1))) := by
  obtain ⟨hts, reward2, hrw2, htot⟩ :=
    buySeq_shape rid ops st st1 reward hr (by rw [he]; simp) hpos hrun
  rw [h0] at hts htot
  rw [he] at hts
  simp only [List.nil_append] at hts
  have hmap : (ops.map (fun o => (o.1, o.2.1))).map Prod.snd = ops.map (fun o => o.2.1) := by
    simp [List.map_map, Function.comp]
  have hkeys : (st1.ticketsStore rid).map Prod.fst =
      (expectedRanges 0 (ops.map (fun o => o.2.1))).map Prod.fst := by
    rw [hts, expectedEntries_map_fst, hmap]
  refine ⟨hkeys, ?_, ⟨reward2, hrw2, by omega⟩, ?_, expectedRanges_pairwise _ 0⟩
  · rw [hkeys]
    apply expectedRanges_chain
    intro a ha
    obtain ⟨o, ho, rfl⟩ := List.mem_map.mp ha
    exact hpos o ho
  · intro x
    rw [expectedRanges_cover]
    omega

/-- Claim C3, counterexample to the claim as stated ("for any sequence of
purchase amounts"): two successful zero-amount purchases both record key 0
— the insertion-order key sequence `[0, 0]` is not strictly increasing and
the second entry overwrites the first, leaving a single entry owned by the
second buyer. -/
theorem buy_ticket_zero_amount_keys :
    buyKeys stW 1 [("alice", 0, 5), ("bob", 0, 5)] = some [0, 0] ∧
    ¬ List.Chain' (fun x y => x < y) [0, 0] ∧
    ticketsAfterSeq (buySeq stW 1 [("alice", 0, 5), ("bob", 0, 5)]) 1 =
      some [(0, "bob")] := by
  refine ⟨rfl, by simp [List.chain'_cons], rfl⟩

/-- Claim C1 (code bug): on `stC1` (one ticket `[0 -> alice]`, past its
deadline) the first `finalize_reward` succeeds returning `alice`, but the
persisted reward state still has `winner = None` — the source never
re-inserts the updated `Reward` record — while the tickets map *is*
cleared; a second `finalize_reward` therefore passes the
`winner.is_none()` assert and panics unwrapping `floor_key` on the cleared
map (`Err.unwrapNone`) instead of failing `AlreadyFinalized`. -/
theorem finalize_winner_not_persisted :
    finalize_reward stC1 100 0 1 = .ok (stC1b, "alice") ∧
    winnerOf stC1b 1 = some none ∧
    stC1b.ticketsStore 1 = [] ∧
    finalize_reward stC1b 100 0 1 = .error .unwrapNone := by
  refine ⟨rfl, rfl, rfl, rfl⟩

/-- Claim C2 (code bug): on a reward with `total_tickets = 0`,
`winner = None` and `now >= ended_at`, `finalize_reward` computes
`random % 0` and aborts with the arithmetic remainder-by-zero panic — not
a designed `NoTicketsSold` error (no such error exists in the source). -/
theorem finalize_zero_tickets_divzero :
    finalize_reward stC2 100 7 1 = .error .divisionByZero := rfl

/-- Claim C6, counterexample to the claim as stated: at `spinwheel_wr = 0`
and random word `65536`, the code's payout is 1 (it first truncates the
`u32` word to `u16`, giving draw 0), while the claim's
`r = random mod total = 65536 mod 232 = 112` selects payout 3. -/
theorem spin_u16_truncation :
    payoutAfterSpin (play_spin_wheel stW "alice" 0 65536 false) = some 1 ∧
    specSpinOutcome stW.spinwheel_wr (specDrawU32 stW.spinwheel_wr 65536) = some 3 ∧
    (some 1 : Option Nat) ≠ some 3 := by
  refine ⟨rfl, rfl, by decide⟩

/-- Claim C7, counterexample to the claim as stated: at
`spinwheel_wr = 255` a payout `<= 5` leaves the counter at 0 — the `u8`
increment wraps around instead of saturating at the maximum. -/
theorem spinwheel_wr_wraps_at_255 :
    stC7.spinwheel_wr = 255 ∧
    payoutAfterSpin (play_spin_wheel stC7 "alice" 0 0 false) = some 1 ∧
    wrAfterSpin (play_spin_wheel stC7 "alice" 0 0 false) = some 0 := by
  refine ⟨rfl, rfl, rfl⟩

theorem buy_ticket_behaviour_witness :
    (stW.rewards 1 = some rewardW ∧ stW.users "alice" = some aliceW ∧
      (3 : Nat) < rewardW.ended_at ∧ rewardW.price * 4 ≤ aliceW.points) ∧
    buy_ticket stW "alice" 3 1 4 =
      .ok (buyApply stW "alice" 1 rewardW aliceW 4, (1, 4)) :=
  ⟨⟨rfl, rfl, by decide, by decide⟩,
    ((buy_ticket_behaviour stW "alice" 3 1 4 rewardW aliceW rfl rfl).2.2 (by decide)
      (by decide)).1⟩

theorem daily_claim_behaviour_witness :
    (stW.users "alice" = some aliceW ∧ aliceW.last_daily_claim ≤ ONE_DAY ∧
      ONE_DAY ≤ ONE_DAY - aliceW.last_daily_claim) ∧
    daily_claim_point stW "alice" ONE_DAY =
      .ok (setUser stW "alice"
            { aliceW with
              points := aliceW.points + stW.daily_claim_points
              last_daily_claim := ONE_DAY },
           aliceW.points + stW.daily_claim_points) :=
  ⟨⟨rfl, by decide, by decide⟩,
    (daily_claim_behaviour stW "alice" ONE_DAY aliceW rfl (by decide)).2.1 (by decide)⟩

theorem spin_selection_witness :
    (stW.users "alice" = some aliceW ∧ stW.spin_wheel_price ≤ aliceW.points) ∧
    payoutAfterSpin (play_spin_wheel stW "alice" 0 0 false) =
      specSpinOutcome stW.spinwheel_wr (spinDraw stW.spinwheel_wr 0) :=
  ⟨⟨rfl, by decide⟩, spin_selection stW "alice" 0 0 aliceW rfl (by decide)⟩

theorem spinwheel_wr_update_witness :
    play_spin_wheel stW "alice" 0 0 false = .ok (stWspin, 1) ∧
    stWspin.spinwheel_wr = (if 5 < 1 then 0 else (stW.spinwheel_wr + 1) % 256) ∧
    stWspin.spinwheel_wr = stW.spinwheel_wr + 1 :=
  ⟨rfl, (spinwheel_wr_update stW "alice" 0 0 false stWspin 1 rfl).1,
    (spinwheel_wr_update stW "alice" 0 0 false stWspin 1 rfl).2 (by decide) (by decide)⟩

theorem debits_prechecked_witness :
    (stW.rewards 1 = some rewardW ∧ stW.users "carol" = some carolW ∧
      (3 : Nat) < rewardW.ended_at ∧ carolW.points < rewardW.price * 4 ∧
      carolW.points < stW.spin_wheel_price) ∧
    buy_ticket stW "carol" 3 1 4 = .error .insufficientPoints ∧
    play_spin_wheel stW "carol" 3 0 false = .error .insufficientPoints :=
  ⟨⟨rfl, rfl, by decide, by decide, by decide⟩,
    (debits_prechecked stW "carol" 3 1 4 0 rewardW carolW rfl rfl).1 (by decide) (by decide),
    (debits_prechecked stW "carol" 3 1 4 0 rewardW carolW rfl rfl).2.2.1 (by decide)⟩

theorem spin_payout_in_table_witness :
    play_spin_wheel stW "alice" 0 0 false = .ok (stWspin, 1) ∧
    (1 : Nat) ∈ ([1, 3, 7, 9, 12, 15] : List Nat) :=
  ⟨rfl, spin_payout_in_table stW "alice" 0 0 false stWspin 1 rfl⟩

theorem zero_amount_buy_witness :
    (stW.rewards 1 = some rewardW ∧ stW.users "alice" = some aliceW ∧
      (3 : Nat) < rewardW.ended_at) ∧
    buy_ticket stW "alice" 3 1 0 =
      .ok (buyApply stW "alice" 1 rewardW aliceW 0, (1, 0)) ∧
    (buyApply stW "alice" 1 rewardW aliceW 0).users "alice" = some aliceW ∧
    tmGet ((buyApply stW "alice" 1 rewardW aliceW 0).ticketsStore 1)
        rewardW.total_tickets = some "alice" :=
  ⟨⟨rfl, rfl, by decide⟩,
    (zero_amount_buy stW "alice" "bob" 3 4 1 3 rewardW aliceW rfl rfl (by decide)).1,
    (zero_amount_buy stW "alice" "bob" 3 4 1 3 rewardW aliceW rfl rfl (by decide)).2.1,
    (zero_amount_buy stW "alice" "bob" 3 4 1 3 rewardW aliceW rfl rfl
      (by decide)).2.2.2.2.1⟩

theorem buy_ticket_ranges_tile_witness :
    (stW.rewards 1 = some rewardW ∧ rewardW.total_tickets = 0 ∧
      stW.ticketsStore 1 = [] ∧ (∀ op ∈ opsW, 0 < op.2.1) ∧
      buySeq stW 1 opsW = some stWbuys) ∧
    (stWbuys.ticketsStore 1).map Prod.fst =
      (expectedRanges 0 (opsW.map (fun o => o.2.1))).map Prod.fst ∧
    List.Chain' (fun x y => x < y) ((stWbuys.ticketsStore 1).map Prod.fst) ∧
    (coveredBy (expectedRanges 0 (opsW.map (fun o => o.2.1))) 4 ↔
      4 < (opsW.map (fun o => o.2.1)).sum) :=
  ⟨⟨rfl, rfl, rfl, by decide, rfl⟩,
    (buy_ticket_ranges_tile stW 1 rewardW opsW stWbuys rfl rfl rfl (by decide) rfl).1,
    (buy_ticket_ranges_tile stW 1 rewardW opsW stWbuys rfl rfl rfl (by decide) rfl).2.1,
    (buy_ticket_ranges_tile stW 1 rewardW opsW stWbuys rfl rfl rfl (by decide)
      rfl).2.2.2.1 4⟩

end Arkana
